import Mathlib

/-!
Verification of the CryoSamba interactive wizard (`run_cryosamba.py`).

The script is an interactive command-line program.  We embed it shallowly:
every interactive loop becomes a total function over an explicit list of
operator inputs (an exhausted list means the loop is still blocked at a
prompt, which we render as `none`/a "blocked" outcome), the filesystem
becomes explicit data passed in and out, and the external `torchrun`
invocation becomes a record of the command line that would be executed.
-/

namespace Cryosamba

/-! ## Validated input collector (`ask_user`, `ask_user_int`, `ask_user_int_multiple`)

`typer.prompt(prompt, default)` returns the default value when the operator
just presses Enter, and the typed text otherwise; `int(...)` then either
parses the text or raises `ValueError` (caught by the collector).  We model
one answer at an integer prompt as: Enter (accept the default), or typed
text whose parse result is `some v` / `none` (non-numeric). -/

inductive Ans where
  | enter : Ans
  | txt : Option Int → Ans
deriving DecidableEq, Repr

/-- Integer obtained from one answer at a prompt whose default is `d`:
`int(ask_user(prompt, d))` yields `d` on Enter, the parsed integer on
numeric text, and raises `ValueError` (modelled as `none`) otherwise. -/
def ans_val (d : Int) : Ans → Option Int
  | .enter => some d
  | .txt o => o

/-- Mirrors `ask_user_int` (run_cryosamba.py lines 241-252): loop until the
answer parses as an integer inside `[min_value, max_value]`; each rejected
answer prints an error and re-prompts.  An exhausted answer list means the
collector is still waiting at the prompt (`none`). -/
def ask_user_int (min_value max_value d : Int) : List Ans → Option Int
  | [] => none
  | a :: rest =>
    match ans_val d a with
    | none => ask_user_int min_value max_value d rest
    | some value =>
      if min_value ≤ value ∧ value ≤ max_value then some value
      else ask_user_int min_value max_value d rest

/-- Mirrors `ask_user_int_multiple` (lines 255-273): additionally requires
`value % multiple == 0` (checked only after the range check, exactly as in
the source). -/
def ask_user_int_multiple (min_value max_value multiple d : Int) :
    List Ans → Option Int
  | [] => none
  | a :: rest =>
    match ans_val d a with
    | none => ask_user_int_multiple min_value max_value multiple d rest
    | some value =>
      if min_value ≤ value ∧ value ≤ max_value then
        if value % multiple ≠ 0 then
          ask_user_int_multiple min_value max_value multiple d rest
        else some value
      else ask_user_int_multiple min_value max_value multiple d rest

/-- Acceptance predicate of one answer at the multiple-constrained prompt:
parses as an integer, lies in the bounds, and is a multiple of `multiple`. -/
def accept_int_mult (min_value max_value multiple d : Int) (a : Ans) : Bool :=
  match ans_val d a with
  | none => false
  | some value =>
    decide (min_value ≤ value) && decide (value ≤ max_value) &&
      decide (value % multiple = 0)

theorem ask_user_int_multiple_step (lo hi s d : Int) (a : Ans) (rest : List Ans) :
    ask_user_int_multiple lo hi s d (a :: rest) =
      if accept_int_mult lo hi s d a then ans_val d a
      else ask_user_int_multiple lo hi s d rest := by
  cases a with
  | enter =>
    simp only [ask_user_int_multiple, ans_val, accept_int_mult]
    by_cases h1 : lo ≤ d
    · by_cases h2 : d ≤ hi
      · by_cases h3 : d % s = 0 <;> simp [h1, h2, h3]
      · simp [h1, h2]
    · simp [h1]
  | txt o =>
    cases o with
    | none => simp [ask_user_int_multiple, ans_val, accept_int_mult]
    | some v =>
      simp only [ask_user_int_multiple, ans_val, accept_int_mult]
      by_cases h1 : lo ≤ v
      · by_cases h2 : v ≤ hi
        · by_cases h3 : v % s = 0 <;> simp [h1, h2, h3]
        · simp [h1, h2]
      · simp [h1]

theorem ask_user_int_step (lo hi d : Int) (a : Ans) (rest : List Ans) :
    ask_user_int lo hi d (a :: rest) =
      match ans_val d a with
      | none => ask_user_int lo hi d rest
      | some v => if lo ≤ v ∧ v ≤ hi then some v else ask_user_int lo hi d rest := by
  cases a with
  | enter => rfl
  | txt o => cases o <;> rfl

theorem ask_user_int_bounds (lo hi d : Int) (ans : List Ans) (v : Int)
    (h : ask_user_int lo hi d ans = some v) : lo ≤ v ∧ v ≤ hi := by
  induction ans with
  | nil => simp [ask_user_int] at h
  | cons a rest ih =>
    rw [ask_user_int_step] at h
    cases hv : ans_val d a with
    | none => simp only [hv] at h; exact ih h
    | some w =>
      simp only [hv] at h
      by_cases hb : lo ≤ w ∧ w ≤ hi
      · rw [if_pos hb] at h
        cases h
        exact hb
      · rw [if_neg hb] at h
        exact ih h

/-- Claim C1.  For the multiple-constrained integer prompt with bounds
`lo ≤ hi` and positive step `s` (as at every call site), and any sequence of
operator answers: the collector returns `v` iff some answer is the first one
that parses as an integer and satisfies `lo ≤ v ≤ hi` and `v % s = 0`, with
every earlier answer rejected (each rejected answer prints exactly one error
message and re-prompts — the recursive call).  The collector never
propagates an exception (it is a total function of the answers) and never
terminates the loop on bad input: it yields `none` (still prompting) iff
every supplied answer is rejected. -/
theorem c1_ask_user_int_multiple_accepts_iff (lo hi s d : Int)
    (hlohi : lo ≤ hi) (hs : 0 < s) (inputs : List Ans) :
    (∀ v : Int,
      ask_user_int_multiple lo hi s d inputs = some v ↔
        ∃ pre a post, inputs = pre ++ a :: post ∧ ans_val d a = some v ∧
          lo ≤ v ∧ v ≤ hi ∧ v % s = 0 ∧
          ∀ b ∈ pre, accept_int_mult lo hi s d b = false) ∧
    (ask_user_int_multiple lo hi s d inputs = none ↔
      ∀ b ∈ inputs, accept_int_mult lo hi s d b = false) := by
  clear hlohi hs
  induction inputs with
  | nil =>
    constructor
    · intro v
      constructor
      · intro h
        simp [ask_user_int_multiple] at h
      · rintro ⟨pre, a, post, h, -⟩
        exact absurd h (by simp)
    · simp [ask_user_int_multiple]
  | cons a0 rest ih =>
    constructor
    · intro v
      rw [ask_user_int_multiple_step]
      by_cases hacc : accept_int_mult lo hi s d a0 = true
      · rw [if_pos hacc]
        constructor
        · intro h
          refine ⟨[], a0, rest, rfl, h, ?_, ?_, ?_, by simp⟩
          all_goals {
            unfold accept_int_mult at hacc
            rw [h] at hacc
            simp only [Bool.and_eq_true, decide_eq_true_eq] at hacc
            tauto }
        · rintro ⟨pre, a, post, heq, hval, h1, h2, h3, hpre⟩
          cases pre with
          | nil =>
            simp only [List.nil_append, List.cons.injEq] at heq
            rw [heq.1, hval]
          | cons p ps =>
            simp only [List.cons_append, List.cons.injEq] at heq
            exfalso
            have hp := hpre p (List.mem_cons_self p ps)
            rw [← heq.1, hacc] at hp
            exact Bool.noConfusion hp
      · rw [if_neg hacc]
        rw [(ih).1 v]
        constructor
        · rintro ⟨pre, a, post, heq, hval, h1, h2, h3, hpre⟩
          refine ⟨a0 :: pre, a, post, by rw [heq]; simp, hval, h1, h2, h3, ?_⟩
          intro b hb
          rcases List.mem_cons.mp hb with hb | hb
          · rw [hb]; simpa using hacc
          · exact hpre b hb
        · rintro ⟨pre, a, post, heq, hval, h1, h2, h3, hpre⟩
          cases pre with
          | nil =>
            simp only [List.nil_append, List.cons.injEq] at heq
            exfalso
            apply hacc
            rw [heq.1]
            unfold accept_int_mult
            rw [hval]
            simp [h1, h2, h3]
          | cons p ps =>
            simp only [List.cons_append, List.cons.injEq] at heq
            refine ⟨ps, a, post, heq.2, hval, h1, h2, h3, ?_⟩
            intro b hb
            exact hpre b (by simp [hb])
    · rw [ask_user_int_multiple_step]
      by_cases hacc : accept_int_mult lo hi s d a0 = true
      · rw [if_pos hacc]
        constructor
        · intro h
          exfalso
          unfold accept_int_mult at hacc
          cases hv : ans_val d a0 with
          | none => simp [hv] at hacc
          | some w => rw [hv] at h; exact Option.noConfusion h
        · intro h
          exact absurd (h a0 (by simp)) (by simp [hacc])
      · rw [if_neg hacc]
        rw [(ih).2]
        constructor
        · intro h b hb
          rcases List.mem_cons.mp hb with hb | hb
          · rw [hb]; simpa using hacc
          · exact h b hb
        · intro h b hb
          exact h b (by simp [hb])

theorem c1_witness :
    (2 : Int) ≤ 256 ∧ (0 : Int) < 2 ∧
    (ask_user_int_multiple 2 256 2 8
        [Ans.txt none, Ans.txt (some 3), Ans.txt (some 300), Ans.txt (some 6)] =
          some 6 ↔
      ∃ pre a post,
        [Ans.txt none, Ans.txt (some 3), Ans.txt (some 300), Ans.txt (some 6)] =
            pre ++ a :: post ∧
          ans_val 8 a = some 6 ∧ (2 : Int) ≤ 6 ∧ (6 : Int) ≤ 256 ∧
          (6 : Int) % 2 = 0 ∧ ∀ b ∈ pre, accept_int_mult 2 256 2 8 b = false) :=
  ⟨by decide, by decide,
    (c1_ask_user_int_multiple_accepts_iff 2 256 2 8 (by decide) (by decide)
      [Ans.txt none, Ans.txt (some 3), Ans.txt (some 300), Ans.txt (some 6)]).1 6⟩

/-! ## Accelerator selection (`select_gpus`, lines 38-65)

The universe of device identifiers is the first comma-delimited column of
the `nvidia-smi` report (header and blank lines skipped).  The selection
loop keeps two lists: `lst_available_gpus` and `select_gpus`; a token equal
to `"F"` finishes, a token in the available list is appended to the
selection and removed (first occurrence) from the available list, any other
token prints "Invalid choice!" and re-prompts without changing anything. -/

structure GpuState where
  available : List String
  selected : List String
deriving DecidableEq, Repr

/-- One accepted choice: move `tok` from available to selected, preserving
selection order (the source does `select_gpus.append` then
`lst_available_gpus.remove`). -/
def select_gpu_step (st : GpuState) (tok : String) : GpuState :=
  ⟨st.available.erase tok, st.selected ++ [tok]⟩

/-- Mirrors the `while True` selection loop.  The `Bool` records whether the
loop finished via the `"F"` token (`false` = the answer list ran out with
the loop still prompting). -/
def select_gpus_loop : GpuState → List String → GpuState × Bool
  | st, [] => (st, false)
  | st, tok :: rest =>
    if tok = "F" then (st, true)
    else if tok ∈ st.available then
      select_gpus_loop (select_gpu_step st tok) rest
    else
      select_gpus_loop st rest

/-- Mirrors the tail of `select_gpus`: an empty selection is reported as the
sentinel `-1`, modelled as `none`; otherwise the ordered selection list. -/
def select_gpus_result (st : GpuState) : Option (List String) :=
  if st.selected.length = 0 then none else some st.selected

/-- Invariant maintained by the selection loop over the queried universe
`u`: both collections are duplicate-free, disjoint, and their union is
exactly `u`. -/
def gpu_inv (u : List String) (st : GpuState) : Prop :=
  st.available.Nodup ∧ st.selected.Nodup ∧
  (∀ x, x ∈ st.selected → x ∉ st.available) ∧
  (∀ x, x ∈ u ↔ (x ∈ st.available ∨ x ∈ st.selected))

theorem gpu_inv_step {u : List String} {st : GpuState} (h : gpu_inv u st)
    {tok : String} (htok : tok ∈ st.available) :
    gpu_inv u (select_gpu_step st tok) := by
  obtain ⟨hav, hsel, hdisj, huniv⟩ := h
  have htok_sel : tok ∉ st.selected := fun hmem => hdisj tok hmem htok
  refine ⟨hav.erase tok, ?_, ?_, ?_⟩
  · simp [select_gpu_step, List.nodup_append, hsel, htok_sel]
  · intro x hx
    simp only [select_gpu_step] at hx ⊢
    rw [hav.mem_erase_iff]
    rintro ⟨hne, hxa⟩
    rcases List.mem_append.mp hx with hx | hx
    · exact hdisj x hx hxa
    · exact hne (by simpa using hx)
  · intro x
    rw [huniv x]
    simp only [select_gpu_step, hav.mem_erase_iff, List.mem_append,
      List.mem_singleton]
    constructor
    · rintro (hxa | hxs)
      · by_cases hxe : x = tok
        · right; right; exact hxe
        · left; exact ⟨hxe, hxa⟩
      · right; left; exact hxs
    · rintro (⟨_, hxa⟩ | hxs | hxe)
      · left; exact hxa
      · right; exact hxs
      · left; rw [hxe]; exact htok

theorem gpu_inv_loop {u : List String} {st : GpuState} (h : gpu_inv u st)
    (toks : List String) : gpu_inv u (select_gpus_loop st toks).1 := by
  induction toks generalizing st with
  | nil => exact h
  | cons tok rest ih =>
    unfold select_gpus_loop
    by_cases hF : tok = "F"
    · rw [if_pos hF]; exact h
    · rw [if_neg hF]
      by_cases hmem : tok ∈ st.available
      · rw [if_pos hmem]; exact ih (gpu_inv_step h hmem)
      · rw [if_neg hmem]; exact ih h

/-- Claim C6.  Starting the interactive selection from the queried universe
`u` (duplicate-free, as the device indices reported by the host are), the
available and selected collections stay disjoint with union equal to `u`
and the selection stays a duplicate-free ordered sequence, after any input
sequence; a token that is not currently available (already selected, or
unknown) is rejected with a re-prompt and changes neither collection;
selecting `"0"` then `"1"` then finishing yields the ordered selection
`["0", "1"]`, and an attempt to reselect `"0"` is rejected leaving the
final selection unchanged. -/
theorem c6_gpu_selection_invariant (u : List String) (hu : u.Nodup)
    (toks : List String) :
    gpu_inv u (select_gpus_loop ⟨u, []⟩ toks).1 ∧
    (∀ (st : GpuState) (tok : String) (rest : List String), tok ≠ "F" →
      tok ∉ st.available →
      select_gpus_loop st (tok :: rest) = select_gpus_loop st rest) ∧
    select_gpus_loop ⟨["0", "1"], []⟩ ["0", "1", "F"] =
      (⟨[], ["0", "1"]⟩, true) ∧
    select_gpus_loop ⟨["0", "1"], []⟩ ["0", "0", "1", "F"] =
      (⟨[], ["0", "1"]⟩, true) ∧
    select_gpus_result ⟨[], ["0", "1"]⟩ = some ["0", "1"] := by
  refine ⟨?_, ?_, by decide, by decide, by decide⟩
  · exact gpu_inv_loop ⟨hu, List.nodup_nil, by simp, by simp⟩ toks
  · intro st tok rest hF hmem
    conv_lhs => unfold select_gpus_loop
    rw [if_neg hF, if_neg hmem]

theorem c6_witness :
    (["0", "1"] : List String).Nodup ∧
    (gpu_inv ["0", "1"] (select_gpus_loop ⟨["0", "1"], []⟩ ["0", "1", "F"]).1 ∧
      (∀ (st : GpuState) (tok : String) (rest : List String), tok ≠ "F" →
        tok ∉ st.available →
        select_gpus_loop st (tok :: rest) = select_gpus_loop st rest) ∧
      select_gpus_loop ⟨["0", "1"], []⟩ ["0", "1", "F"] =
        (⟨[], ["0", "1"]⟩, true) ∧
      select_gpus_loop ⟨["0", "1"], []⟩ ["0", "0", "1", "F"] =
        (⟨[], ["0", "1"]⟩, true) ∧
      select_gpus_result ⟨[], ["0", "1"]⟩ = some ["0", "1"]) :=
  ⟨by decide, c6_gpu_selection_invariant ["0", "1"] (by decide) ["0", "1", "F"]⟩

/-! ## Run launcher (`run_training` lines 68-90, `run_inference` lines 93-112)

The launcher is called with `",".join(selected_gpus)`.  The command line is
`OMP_NUM_THREADS=1 CUDA_VISIBLE_DEVICES={gpus} torchrun --standalone
--nproc_per_node=$(echo {gpus} | tr ',' '\n' | wc -l) .../train.py
--config {config_path}`; it is executed only after the operator confirms. -/

/-- The experiments root `RUNS_DIR = os.path.join(os.getcwd(), "runs")`,
modelled relative to the working directory. -/
def RUNS_DIR : String := "runs"

/-- Models Python `",".join(parts)`. -/
def join_comma : List String → String
  | [] => ""
  | [g] => g
  | g :: rest => g ++ "," ++ join_comma rest

/-- Models the shell substitution `$(echo s | tr ',' '\n' | wc -l)`:
`echo` prints `s` followed by a newline, `tr` turns every comma into a
newline, and `wc -l` counts the newlines. -/
def shell_count_lines (s : String) : Nat :=
  ((s.data.map fun c => if c = ',' then '\n' else c) ++ ['\n']).count '\n'

structure TorchrunCmd where
  ompNumThreads : Nat
  cudaVisibleDevices : String
  nprocPerNode : Nat
  script : String
  configPath : String
deriving DecidableEq, Repr

/-- The command line built by `run_training` for the comma-joined device
string `gpus` and the experiment `exp_name`. -/
def train_cmd (gpus exp_name : String) : TorchrunCmd :=
  { ompNumThreads := 1
    cudaVisibleDevices := gpus
    nprocPerNode := shell_count_lines gpus
    script := "train.py"
    configPath := RUNS_DIR ++ "/" ++ exp_name ++ "/train_config.json" }

/-- The command line built by `run_inference`. -/
def inference_cmd (gpus exp_name : String) : TorchrunCmd :=
  { ompNumThreads := 1
    cudaVisibleDevices := gpus
    nprocPerNode := shell_count_lines gpus
    script := "inference.py"
    configPath := RUNS_DIR ++ "/" ++ exp_name ++ "/inference_config.json" }

/-- Mirrors `run_training`: after the instructional summary, the external
process runs only if the operator confirms; declining prints "Training
aborted" and executes nothing (`none`). -/
def run_training (gpus exp_name : String) (confirm : Bool) : Option TorchrunCmd :=
  if confirm then some (train_cmd gpus exp_name) else none

/-- Mirrors `run_inference`. -/
def run_inference (gpus exp_name : String) (confirm : Bool) : Option TorchrunCmd :=
  if confirm then some (inference_cmd gpus exp_name) else none

theorem shell_count_lines_append (s t : List Char) :
    (((s ++ t).map fun c => if c = ',' then '\n' else c) ++ ['\n']).count '\n' =
      ((s.map fun c => if c = ',' then '\n' else c)).count '\n' +
        ((t.map fun c => if c = ',' then '\n' else c) ++ ['\n']).count '\n' := by
  simp [List.count_append]

theorem count_tr_no_newline (s : List Char) (h : '\n' ∉ s) :
    ((s.map fun c => if c = ',' then '\n' else c)).count '\n' = s.count ',' := by
  induction s with
  | nil => simp
  | cons c cs ih =>
    simp only [List.mem_cons, not_or] at h
    by_cases hc : c = ','
    · simp [hc, List.count_cons, ih h.2]
    · have hcn : c ≠ '\n' := fun hh => h.1 hh.symm
      simp [hc, List.count_cons, ih h.2, hcn]

theorem shell_count_lines_join (sel : List String) (hne : sel ≠ [])
    (hcl : ∀ g ∈ sel, ',' ∉ g.data ∧ '\n' ∉ g.data) :
    shell_count_lines (join_comma sel) = sel.length := by
  induction sel with
  | nil => exact absurd rfl hne
  | cons g rest ih =>
    cases rest with
    | nil =>
      obtain ⟨hc, hn⟩ := hcl g (by simp)
      unfold shell_count_lines join_comma
      rw [List.count_append, count_tr_no_newline g.data hn]
      simp [List.count_eq_zero.mpr hc]
    | cons g' rest' =>
      obtain ⟨hc, hn⟩ := hcl g (by simp)
      have hrest : ∀ x ∈ g' :: rest', ',' ∉ x.data ∧ '\n' ∉ x.data :=
        fun x hx => hcl x (by simp [hx])
      unfold shell_count_lines at ih ⊢
      show ((((g ++ "," ++ join_comma (g' :: rest')).data.map
          fun c => if c = ',' then '\n' else c) ++ ['\n']).count '\n') = _
      rw [String.data_append, String.data_append]
      rw [List.append_assoc, shell_count_lines_append]
      rw [count_tr_no_newline g.data hn, List.count_eq_zero.mpr hc]
      have hstep : ((("," : String).data ++ (join_comma (g' :: rest')).data).map
            fun c => if c = ',' then '\n' else c) ++ ['\n'] =
          '\n' :: (((join_comma (g' :: rest')).data.map
            fun c => if c = ',' then '\n' else c) ++ ['\n']) := by
        simp
      rw [hstep, List.count_cons]
      rw [ih (by simp) hrest]
      simp [List.length_cons]

/-- Claim C8.  For every launched run with a non-empty ordered device
selection (device identifiers contain no comma and no newline, as the
indices parsed from the device report do), the built command restricts the
process to exactly the selected identifiers joined by commas
(`CUDA_VISIBLE_DEVICES`), sets the worker-process count
(`--nproc_per_node`, computed by the shell from the joined string) equal to
the number of selected devices, and passes the experiment's
`train_config.json` (training) or `inference_config.json` (inference) path
as the `--config` argument; if the operator declines the pre-run
confirmation, no external process is executed. -/
theorem c8_run_launcher (sel : List String) (exp_name : String)
    (hne : sel ≠ []) (hcl : ∀ g ∈ sel, ',' ∉ g.data ∧ '\n' ∉ g.data) :
    run_training (join_comma sel) exp_name true =
      some (train_cmd (join_comma sel) exp_name) ∧
    (train_cmd (join_comma sel) exp_name).cudaVisibleDevices = join_comma sel ∧
    (train_cmd (join_comma sel) exp_name).nprocPerNode = sel.length ∧
    (train_cmd (join_comma sel) exp_name).configPath =
      RUNS_DIR ++ "/" ++ exp_name ++ "/train_config.json" ∧
    run_inference (join_comma sel) exp_name true =
      some (inference_cmd (join_comma sel) exp_name) ∧
    (inference_cmd (join_comma sel) exp_name).cudaVisibleDevices =
      join_comma sel ∧
    (inference_cmd (join_comma sel) exp_name).nprocPerNode = sel.length ∧
    (inference_cmd (join_comma sel) exp_name).configPath =
      RUNS_DIR ++ "/" ++ exp_name ++ "/inference_config.json" ∧
    run_training (join_comma sel) exp_name false = none ∧
    run_inference (join_comma sel) exp_name false = none := by
  refine ⟨rfl, rfl, ?_, rfl, rfl, rfl, ?_, rfl, rfl, rfl⟩ <;>
    exact shell_count_lines_join sel hne hcl

theorem c8_witness :
    (["0", "1"] : List String) ≠ [] ∧
    (run_training (join_comma ["0", "1"]) "exp1" true =
        some (train_cmd (join_comma ["0", "1"]) "exp1") ∧
      (train_cmd (join_comma ["0", "1"]) "exp1").cudaVisibleDevices =
        join_comma ["0", "1"] ∧
      (train_cmd (join_comma ["0", "1"]) "exp1").nprocPerNode =
        (["0", "1"] : List String).length ∧
      (train_cmd (join_comma ["0", "1"]) "exp1").configPath =
        RUNS_DIR ++ "/" ++ "exp1" ++ "/train_config.json" ∧
      run_inference (join_comma ["0", "1"]) "exp1" true =
        some (inference_cmd (join_comma ["0", "1"]) "exp1") ∧
      (inference_cmd (join_comma ["0", "1"]) "exp1").cudaVisibleDevices =
        join_comma ["0", "1"] ∧
      (inference_cmd (join_comma ["0", "1"]) "exp1").nprocPerNode =
        (["0", "1"] : List String).length ∧
      (inference_cmd (join_comma ["0", "1"]) "exp1").configPath =
        RUNS_DIR ++ "/" ++ "exp1" ++ "/inference_config.json" ∧
      run_training (join_comma ["0", "1"]) "exp1" false = none ∧
      run_inference (join_comma ["0", "1"]) "exp1" false = none) :=
  ⟨by decide, c8_run_launcher ["0", "1"] "exp1" (by decide) (by decide)⟩

/-! ## Data-path validation (`generate_experiment` lines 302-328,
`list_tif_files` lines 276-285)

A candidate data path either does not exist, is a regular file, or is a
directory whose entries we record as `(name, isFile)` pairs. -/

inductive PathKind where
  | file : PathKind
  | dir : List (String × Bool) → PathKind
deriving DecidableEq, Repr

/-- Models Python `os.path.splitext(p)[1]`: the extension starts at the last
dot of the final path component, unless every character before that dot in
the component is itself a dot (so `".bashrc"` has no extension). -/
def splitext_ext (p : String) : String :=
  let base := (p.data.reverse.takeWhile (fun c => c ≠ '/')).reverse
  let lead := base.takeWhile (fun c => c = '.')
  let rest := base.drop lead.length
  if rest.contains '.' then
    ⟨'.' :: (rest.reverse.takeWhile (fun c => c ≠ '.')).reverse⟩
  else ""

/-- Mirrors `list_tif_files`: the entries of a directory that are files and
whose name ends with `".tif"`. -/
def list_tif_files (entries : List (String × Bool)) : List String :=
  (entries.filter fun e => e.2 && e.1.endsWith ".tif").map (·.1)

/-- Acceptance test of one candidate data path, mirroring the body of the
`while True` loop: the path must exist; a file must have extension `.mrc`,
`.rec` or `.tif`; a directory must contain at least one `.tif` file.  Every
failing case prints an error and stays in the loop. -/
def accept_data_path (fs : List (String × PathKind)) (p : String) : Bool :=
  match fs.lookup p with
  | none => false
  | some .file => decide (splitext_ext p ∈ [".mrc", ".rec", ".tif"])
  | some (.dir entries) => !((list_tif_files entries).length == 0)

/-- Mirrors the data-path `while True` loop of `generate_experiment`: keep
prompting until an acceptable path is entered; `none` means the supplied
answers ran out with the wizard still at the prompt. -/
def data_path_loop (fs : List (String × PathKind)) : List String → Option String
  | [] => none
  | p :: rest =>
    if accept_data_path fs p then some p else data_path_loop fs rest

/-- Claim C3.  The data-path input is validated before config generation
proceeds: a path is accepted iff it exists and, when a single file, its
extension is one of the three supported container formats, and, when a
directory, it contains at least one `.tif` file; a directory with zero
`.tif` files is rejected no matter how many non-matching entries it has;
every rejection re-prompts for a new path (the loop continues on the
remaining answers) instead of aborting the wizard, and the loop only ever
returns an accepted path. -/
theorem c3_data_path_validation (fs : List (String × PathKind)) :
    (∀ p : String,
      accept_data_path fs p = true ↔
        ((∃ k, fs.lookup p = some k) ∧
          (fs.lookup p = some .file →
            splitext_ext p ∈ [".mrc", ".rec", ".tif"]) ∧
          (∀ entries, fs.lookup p = some (.dir entries) →
            ∃ e ∈ entries, e.2 = true ∧ e.1.endsWith ".tif" = true))) ∧
    (∀ p entries, fs.lookup p = some (.dir entries) →
      (∀ e ∈ entries, ¬(e.2 = true ∧ e.1.endsWith ".tif" = true)) →
      accept_data_path fs p = false) ∧
    (∀ p rest, accept_data_path fs p = false →
      data_path_loop fs (p :: rest) = data_path_loop fs rest) ∧
    (∀ inputs p, data_path_loop fs inputs = some p →
      accept_data_path fs p = true ∧ p ∈ inputs) := by
  have hmem : ∀ entries : List (String × Bool),
      (list_tif_files entries ≠ []) ↔
        ∃ e ∈ entries, e.2 = true ∧ e.1.endsWith ".tif" = true := by
    intro entries
    unfold list_tif_files
    rw [← List.length_pos_iff_ne_nil, List.length_pos_iff_exists_mem]
    constructor
    · rintro ⟨x, hx⟩
      obtain ⟨e, he, -⟩ := List.mem_map.mp hx
      have := List.mem_filter.mp he
      refine ⟨e, this.1, ?_⟩
      have hb := this.2
      simp only [Bool.and_eq_true] at hb
      exact hb
    · rintro ⟨e, he, h2, htif⟩
      exact ⟨e.1, List.mem_map.mpr ⟨e, List.mem_filter.mpr ⟨he, by simp [h2, htif]⟩, rfl⟩⟩
  refine ⟨?_, ?_, ?_, ?_⟩
  · intro p
    unfold accept_data_path
    cases hl : fs.lookup p with
    | none => simp
    | some k =>
      cases k with
      | file => simp
      | dir entries =>
        simp only [Bool.not_eq_true', beq_eq_false_iff_ne, ne_eq,
          List.length_eq_zero]
        rw [show ¬list_tif_files entries = [] ↔ list_tif_files entries ≠ [] from
          Iff.rfl, hmem entries]
        constructor
        · intro h
          refine ⟨⟨_, rfl⟩, ?_, ?_⟩
          · intro hf
            exact absurd hf (by simp)
          · intro es hes
            simp only [Option.some.injEq, PathKind.dir.injEq] at hes
            subst hes
            exact h
        · rintro ⟨-, -, h⟩
          exact h entries rfl
  · intro p entries hl hnone
    unfold accept_data_path
    rw [hl]
    simp only [Bool.not_eq_true', beq_iff_eq, List.length_eq_zero]
    by_contra hne
    obtain ⟨e, he, hprop⟩ := (hmem entries).mp (by
      intro hnil
      exact hne (by simp [hnil]))
    exact hnone e he hprop
  · intro p rest h
    conv_lhs => unfold data_path_loop
    rw [h]
    simp
  · intro inputs p h
    induction inputs with
    | nil => simp [data_path_loop] at h
    | cons q rest ih =>
      unfold data_path_loop at h
      by_cases hq : accept_data_path fs q = true
      · rw [if_pos hq] at h
        cases h
        exact ⟨hq, by simp⟩
      · rw [if_neg (by simpa using hq)] at h
        obtain ⟨h1, h2⟩ := ih h
        exact ⟨h1, by simp [h2]⟩

/-! ## Configuration documents (`generate_experiment` lines 330-567)

The two generated documents are Python dicts serialized with
`json.dump(..., indent=4)`; dict insertion order is preserved, so the key
layout is fixed by the source.  We embed the documents as a small JSON
value type.  Python floats are embedded as exact rationals (`J.q`); values
collected by the unvalidated `ask_user` pass-through (booleans, strings,
floats in the advanced path) are embedded as opaque `J` values. -/

inductive J where
  | s : String → J
  | i : Int → J
  | q : Rat → J
  | b : Bool → J
  | null : J
  | arr : List J → J
  | obj : List (String × J) → J
deriving Repr

/-- Replaces the value stored at a top-level key of an object. -/
def set_field (key : String) (v : J) : J → J
  | .obj fields => .obj (fields.map fun kv => if kv.1 = key then (kv.1, v) else kv)
  | j => j

/-- Top-level key sequence of an object, in serialization order. -/
def top_keys : J → List String
  | .obj fields => fields.map (·.1)
  | _ => []

/-- Value stored at a top-level key of an object. -/
def get_field (key : String) : J → Option J
  | .obj fields => fields.lookup key
  | _ => none

def jstr (v : String) : String := "\"" ++ v ++ "\""

def pad (n : Nat) : String := String.mk (List.replicate n ' ')

mutual

/-- Serialization in the style of `json.dump(..., indent=4)`: `ind` is the
indentation depth per level (4 in the source), `lvl` the current level. -/
def render_json (ind lvl : Nat) : J → String
  | .s v => jstr v
  | .i v => toString v
  | .q v => toString v
  | .b true => "true"
  | .b false => "false"
  | .null => "null"
  | .arr vs => "[\n" ++ render_arr ind (lvl + 1) vs ++ "\n" ++ pad (ind * lvl) ++ "]"
  | .obj fields =>
    "\x7b\n" ++ render_obj ind (lvl + 1) fields ++ "\n" ++ pad (ind * lvl) ++ "\x7d"

def render_arr (ind lvl : Nat) : List J → String
  | [] => ""
  | [v] => pad (ind * lvl) ++ render_json ind lvl v
  | v :: rest =>
    pad (ind * lvl) ++ render_json ind lvl v ++ ",\n" ++ render_arr ind lvl rest

def render_obj (ind lvl : Nat) : List (String × J) → String
  | [] => ""
  | [(k, v)] => pad (ind * lvl) ++ jstr k ++ ": " ++ render_json ind lvl v
  | (k, v) :: rest =>
    pad (ind * lvl) ++ jstr k ++ ": " ++ render_json ind lvl v ++ ",\n" ++
      render_obj ind lvl rest

end

/-- All values that feed the two config documents, mirroring the local
variables of `generate_experiment` after parameter collection. -/
structure Params where
  data_path : String
  train_max_frame_gap : Int
  num_iters : Int
  batch_size : Int
  inference_max_frame_gap : Int
  tta : Bool
  early_stopping : Bool
  train_data_patch_shape_y : Int
  train_data_patch_shape_x : Int
  train_data_patch_overlap_y : Int
  train_data_patch_overlap_x : Int
  train_data_split : J
  train_data_num_workers : Int
  train_load_ckpt_path : J
  train_print_freq : Int
  train_save_freq : Int
  train_val_freq : Int
  train_warmup_iters : Int
  train_mixed_precision : J
  train_compile : J
  optimizer_lr : J
  optimizer_lr_decay : J
  optimizer_weight_decay : J
  optimizer_epsilon : J
  optimizer_betas_0 : J
  optimizer_betas_1 : J
  biflownet_pyr_dim : Int
  biflownet_pyr_level : Int
  biflownet_corr_radius : Int
  biflownet_kernel_size : Int
  biflownet_warp_type : J
  biflownet_padding_mode : J
  biflownet_fix_params : J
  fusionnet_num_channels : Int
  fusionnet_padding_mode : J
  fusionnet_fix_params : J
  inference_data_patch_shape_y : Int
  inference_data_patch_shape_x : Int
  inference_data_patch_overlap_y : Int
  inference_data_patch_overlap_x : Int
  inference_data_num_workers : Int
  inference_output_format : J
  inference_load_ckpt_name : J
  inference_pyr_level : Int
  inference_mixed_precision : J
  inference_compile : J

/-- The fixed default table of `generate_experiment` (lines 372-416),
combined with the interactively collected values `dp`, `tg`, `ni`, `bs`,
`ig`, `tta`, `early`. -/
def default_params (dp : String) (tg ni bs ig : Int) (tta early : Bool) : Params :=
  { data_path := dp
    train_max_frame_gap := tg
    num_iters := ni
    batch_size := bs
    inference_max_frame_gap := ig
    tta := tta
    early_stopping := early
    train_data_patch_shape_y := 256
    train_data_patch_shape_x := 256
    train_data_patch_overlap_y := 16
    train_data_patch_overlap_x := 16
    train_data_split := J.q (0.95 : Rat)
    train_data_num_workers := 4
    train_load_ckpt_path := J.null
    train_print_freq := 100
    train_save_freq := 1000
    train_val_freq := 500
    train_warmup_iters := 300
    train_mixed_precision := J.b true
    train_compile := J.b false
    optimizer_lr := J.q (2e-4 : Rat)
    optimizer_lr_decay := J.q (0.99995 : Rat)
    optimizer_weight_decay := J.q (0.0001 : Rat)
    optimizer_epsilon := J.q (1e-8 : Rat)
    optimizer_betas_0 := J.q (0.9 : Rat)
    optimizer_betas_1 := J.q (0.999 : Rat)
    biflownet_pyr_dim := 24
    biflownet_pyr_level := 3
    biflownet_corr_radius := 4
    biflownet_kernel_size := 3
    biflownet_warp_type := J.s "soft_splat"
    biflownet_padding_mode := J.s "reflect"
    biflownet_fix_params := J.b false
    fusionnet_num_channels := 16
    fusionnet_padding_mode := J.s "reflect"
    fusionnet_fix_params := J.b false
    inference_data_patch_shape_y := 256
    inference_data_patch_shape_x := 256
    inference_data_patch_overlap_y := 16
    inference_data_patch_overlap_x := 16
    inference_data_num_workers := 4
    inference_output_format := J.s "same"
    inference_load_ckpt_name := J.null
    inference_pyr_level := 3
    inference_mixed_precision := J.b true
    inference_compile := J.b false }

def train_dir_of (exp_name : String) : String :=
  RUNS_DIR ++ "/" ++ exp_name ++ "/train"

def inference_dir_of (exp_name : String) : String :=
  RUNS_DIR ++ "/" ++ exp_name ++ "/inference"

/-- The `train_config` dict (lines 490-533), keys in insertion order. -/
def train_config_doc (exp_name : String) (p : Params) : J :=
  J.obj [
    ("train_dir", J.s (train_dir_of exp_name)),
    ("data_path", J.s p.data_path),
    ("train_data", J.obj [
      ("max_frame_gap", J.i p.train_max_frame_gap),
      ("patch_shape",
        J.arr [J.i p.train_data_patch_shape_y, J.i p.train_data_patch_shape_x]),
      ("patch_overlap",
        J.arr [J.i p.train_data_patch_overlap_y, J.i p.train_data_patch_overlap_x]),
      ("split_ratio", p.train_data_split),
      ("batch_size", J.i p.batch_size),
      ("num_workers", J.i p.train_data_num_workers)]),
    ("train", J.obj [
      ("num_iters", J.i p.num_iters),
      ("load_ckpt_path", p.train_load_ckpt_path),
      ("print_freq", J.i p.train_print_freq),
      ("save_freq", J.i p.train_save_freq),
      ("val_freq", J.i p.train_val_freq),
      ("warmup_iters", J.i p.train_warmup_iters),
      ("mixed_precision", p.train_mixed_precision),
      ("compile", p.train_compile),
      ("do_early_stopping", J.b p.early_stopping)]),
    ("optimizer", J.obj [
      ("lr", p.optimizer_lr),
      ("lr_decay", p.optimizer_lr_decay),
      ("weight_decay", p.optimizer_weight_decay),
      ("epsilon", p.optimizer_epsilon),
      ("betas", J.arr [p.optimizer_betas_0, p.optimizer_betas_1])]),
    ("biflownet", J.obj [
      ("pyr_dim", J.i p.biflownet_pyr_dim),
      ("pyr_level", J.i p.biflownet_pyr_level),
      ("corr_radius", J.i p.biflownet_corr_radius),
      ("kernel_size", J.i p.biflownet_kernel_size),
      ("warp_type", p.biflownet_warp_type),
      ("padding_mode", p.biflownet_padding_mode),
      ("fix_params", p.biflownet_fix_params)]),
    ("fusionnet", J.obj [
      ("num_channels", J.i p.fusionnet_num_channels),
      ("padding_mode", p.fusionnet_padding_mode),
      ("fix_params", p.fusionnet_fix_params)])]

/-- The `inference_config` dict (lines 536-558), keys in insertion order. -/
def inference_config_doc (exp_name : String) (p : Params) : J :=
  J.obj [
    ("train_dir", J.s (train_dir_of exp_name)),
    ("data_path", J.s p.data_path),
    ("inference_dir", J.s (inference_dir_of exp_name)),
    ("inference_data", J.obj [
      ("max_frame_gap", J.i p.inference_max_frame_gap),
      ("patch_shape",
        J.arr [J.i p.inference_data_patch_shape_y,
          J.i p.inference_data_patch_shape_x]),
      ("patch_overlap",
        J.arr [J.i p.inference_data_patch_overlap_y,
          J.i p.inference_data_patch_overlap_x]),
      ("batch_size", J.i p.batch_size),
      ("num_workers", J.i p.inference_data_num_workers)]),
    ("inference", J.obj [
      ("output_format", p.inference_output_format),
      ("load_ckpt_name", p.inference_load_ckpt_name),
      ("pyr_level", J.i p.inference_pyr_level),
      ("mixed_precision", p.inference_mixed_precision),
      ("TTA", J.b p.tta),
      ("compile", p.inference_compile)])]

/-- The two config files written under the experiment directory
`runs/<exp_name>` (lines 560-567): sibling files, serialized with
indentation depth 4. -/
def experiment_files (exp_name : String) (p : Params) : List (String × String) :=
  [("train_config.json", render_json 4 0 (train_config_doc exp_name p)),
   ("inference_config.json", render_json 4 0 (inference_config_doc exp_name p))]

/-- Claim C7.  Config generation is deterministic: from identical collected
inputs `p` under two distinct experiment names, the two generated documents
agree except for the experiment-name-derived path fields (`train_dir`, and
for the inference document also `inference_dir`): substituting the second
name's derived paths into the first document yields exactly the second
document, hence the serialized bytes also agree after that substitution.
Both documents are persisted as the two sibling files `train_config.json`
and `inference_config.json` under the experiment's directory, with the
fixed key ordering shown and indentation depth 4. -/
theorem c7_deterministic_generation (p : Params) (n1 n2 : String) :
    set_field "train_dir" (J.s (train_dir_of n2)) (train_config_doc n1 p) =
      train_config_doc n2 p ∧
    set_field "inference_dir" (J.s (inference_dir_of n2))
        (set_field "train_dir" (J.s (train_dir_of n2))
          (inference_config_doc n1 p)) =
      inference_config_doc n2 p ∧
    render_json 4 0
        (set_field "train_dir" (J.s (train_dir_of n2)) (train_config_doc n1 p)) =
      render_json 4 0 (train_config_doc n2 p) ∧
    render_json 4 0
        (set_field "inference_dir" (J.s (inference_dir_of n2))
          (set_field "train_dir" (J.s (train_dir_of n2))
            (inference_config_doc n1 p))) =
      render_json 4 0 (inference_config_doc n2 p) ∧
    top_keys (train_config_doc n1 p) =
      ["train_dir", "data_path", "train_data", "train", "optimizer",
        "biflownet", "fusionnet"] ∧
    top_keys (inference_config_doc n1 p) =
      ["train_dir", "data_path", "inference_dir", "inference_data",
        "inference"] ∧
    experiment_files n1 p =
      [("train_config.json", render_json 4 0 (train_config_doc n1 p)),
       ("inference_config.json", render_json 4 0 (inference_config_doc n1 p))] := by
  have h1 : set_field "train_dir" (J.s (train_dir_of n2)) (train_config_doc n1 p) =
      train_config_doc n2 p := rfl
  have h2 : set_field "inference_dir" (J.s (inference_dir_of n2))
      (set_field "train_dir" (J.s (train_dir_of n2)) (inference_config_doc n1 p)) =
      inference_config_doc n2 p := rfl
  exact ⟨h1, h2, congrArg (render_json 4 0) h1, congrArg (render_json 4 0) h2,
    rfl, rfl, rfl⟩

/-! ## Interactive parameter collection (`generate_experiment` lines 302-487)

Answers to the advanced-path prompts: the validated integer prompts take
`Ans` lists, the unvalidated `ask_user` pass-throughs take the value that
ends up in the config (`J`). -/

structure AdvAnswers where
  train_patch_y : List Ans
  train_patch_x : List Ans
  train_overlap_y : List Ans
  train_overlap_x : List Ans
  train_num_workers : List Ans
  print_freq : List Ans
  save_freq : List Ans
  val_freq : List Ans
  warmup_iters : List Ans
  mixed_precision : J
  compile_flag : J
  lr : J
  lr_decay : J
  weight_decay : J
  epsilon : J
  betas_0 : J
  betas_1 : J
  biflownet_pyr_dim : List Ans
  biflownet_pyr_level : List Ans
  biflownet_corr_radius : List Ans
  biflownet_kernel_size : List Ans
  biflownet_warp_type : J
  biflownet_padding_mode : J
  biflownet_fix_params : J
  fusionnet_num_channels : List Ans
  fusionnet_padding_mode : J
  fusionnet_fix_params : J
  inf_patch_y : List Ans
  inf_patch_x : List Ans
  inf_overlap_y : List Ans
  inf_overlap_x : List Ans
  inf_num_workers : List Ans
  inference_output_format : J
  inference_pyr_level : List Ans
  inference_mixed_precision : J
  inference_compile : J

/-- All operator answers of one `generate_experiment` session. -/
structure Answers where
  data_path_answers : List String
  train_gap : List Ans
  num_iters : List Ans
  batch : List Ans
  inf_gap : List Ans
  tta : Bool
  early : Bool
  advanced : Bool
  adv : AdvAnswers

/-- Mirrors the `if advanced:` block (lines 418-487): every default is
re-collected through the validated prompts with the bounds of the source;
the inference maximum frame gap, the batch size, the iteration budget, the
split ratio (reassigned to the same constant) and the two checkpoint-name
fields are NOT re-collected. -/
def apply_advanced (p : Params) (a : AdvAnswers) : Option Params :=
  match ask_user_int_multiple 32 1024 32 256 a.train_patch_y with
  | none => none
  | some tpy =>
  match ask_user_int_multiple 32 1024 32 256 a.train_patch_x with
  | none => none
  | some tpx =>
  match ask_user_int_multiple 0 512 4 16 a.train_overlap_y with
  | none => none
  | some toy =>
  match ask_user_int_multiple 0 512 4 16 a.train_overlap_x with
  | none => none
  | some tox =>
  match ask_user_int 0 512 4 a.train_num_workers with
  | none => none
  | some tnw =>
  match ask_user_int 1 10000 100 a.print_freq with
  | none => none
  | some pf =>
  match ask_user_int 1 10000 1000 a.save_freq with
  | none => none
  | some sf =>
  match ask_user_int 1 10000 500 a.val_freq with
  | none => none
  | some vf =>
  match ask_user_int 1 10000 300 a.warmup_iters with
  | none => none
  | some wi =>
  match ask_user_int_multiple 4 128 4 24 a.biflownet_pyr_dim with
  | none => none
  | some bpd =>
  match ask_user_int 1 20 3 a.biflownet_pyr_level with
  | none => none
  | some bpl =>
  match ask_user_int 1 20 4 a.biflownet_corr_radius with
  | none => none
  | some bcr =>
  match ask_user_int 1 20 3 a.biflownet_kernel_size with
  | none => none
  | some bks =>
  match ask_user_int_multiple 4 128 4 16 a.fusionnet_num_channels with
  | none => none
  | some fnc =>
  match ask_user_int_multiple 32 1024 32 256 a.inf_patch_y with
  | none => none
  | some ipy =>
  match ask_user_int_multiple 32 1024 32 256 a.inf_patch_x with
  | none => none
  | some ipx =>
  match ask_user_int_multiple 0 512 4 16 a.inf_overlap_y with
  | none => none
  | some ioy =>
  match ask_user_int_multiple 0 512 4 16 a.inf_overlap_x with
  | none => none
  | some iox =>
  match ask_user_int 0 512 4 a.inf_num_workers with
  | none => none
  | some inw =>
  match ask_user_int 1 20 3 a.inference_pyr_level with
  | none => none
  | some ipl =>
  some { p with
    train_data_patch_shape_y := tpy
    train_data_patch_shape_x := tpx
    train_data_patch_overlap_y := toy
    train_data_patch_overlap_x := tox
    train_data_split := J.q (0.95 : Rat)
    train_data_num_workers := tnw
    train_print_freq := pf
    train_save_freq := sf
    train_val_freq := vf
    train_warmup_iters := wi
    train_mixed_precision := a.mixed_precision
    train_compile := a.compile_flag
    optimizer_lr := a.lr
    optimizer_lr_decay := a.lr_decay
    optimizer_weight_decay := a.weight_decay
    optimizer_epsilon := a.epsilon
    optimizer_betas_0 := a.betas_0
    optimizer_betas_1 := a.betas_1
    biflownet_pyr_dim := bpd
    biflownet_pyr_level := bpl
    biflownet_corr_radius := bcr
    biflownet_kernel_size := bks
    biflownet_warp_type := a.biflownet_warp_type
    biflownet_padding_mode := a.biflownet_padding_mode
    biflownet_fix_params := a.biflownet_fix_params
    fusionnet_num_channels := fnc
    fusionnet_padding_mode := a.fusionnet_padding_mode
    fusionnet_fix_params := a.fusionnet_fix_params
    inference_data_patch_shape_y := ipy
    inference_data_patch_shape_x := ipx
    inference_data_patch_overlap_y := ioy
    inference_data_patch_overlap_x := iox
    inference_data_num_workers := inw
    inference_output_format := a.inference_output_format
    inference_pyr_level := ipl
    inference_mixed_precision := a.inference_mixed_precision
    inference_compile := a.inference_compile }

/-- Mirrors the parameter-collection part of `generate_experiment`:
data-path loop, then the five validated prompts (with the source's bounds
and defaults — the inference frame-gap default is `train_max_frame_gap * 2`),
then the three confirmations, then optionally the advanced block. -/
def generate_collect (dfs : List (String × PathKind)) (a : Answers) :
    Option Params :=
  match data_path_loop dfs a.data_path_answers with
  | none => none
  | some dp =>
  match ask_user_int 1 40 3 a.train_gap with
  | none => none
  | some tg =>
  match ask_user_int 1000 200000 50000 a.num_iters with
  | none => none
  | some ni =>
  match ask_user_int_multiple 2 256 2 8 a.batch with
  | none => none
  | some bs =>
  match ask_user_int 1 80 (tg * 2) a.inf_gap with
  | none => none
  | some ig =>
  if a.advanced then
    apply_advanced (default_params dp tg ni bs ig a.tta a.early) a.adv
  else
    some (default_params dp tg ni bs ig a.tta a.early)

theorem apply_advanced_keeps_gaps (p : Params) (a : AdvAnswers) (q : Params)
    (h : apply_advanced p a = some q) :
    q.inference_max_frame_gap = p.inference_max_frame_gap ∧
    q.train_max_frame_gap = p.train_max_frame_gap := by
  unfold apply_advanced at h
  repeat' split at h
  all_goals try exact Option.noConfusion h
  cases h
  exact ⟨rfl, rfl⟩

theorem generate_collect_inv (dfs : List (String × PathKind)) (a : Answers)
    (p : Params) (h : generate_collect dfs a = some p) :
    ∃ dp tg ni bs ig,
      data_path_loop dfs a.data_path_answers = some dp ∧
      ask_user_int 1 40 3 a.train_gap = some tg ∧
      ask_user_int 1000 200000 50000 a.num_iters = some ni ∧
      ask_user_int_multiple 2 256 2 8 a.batch = some bs ∧
      ask_user_int 1 80 (tg * 2) a.inf_gap = some ig ∧
      ((a.advanced = true ∧
          apply_advanced (default_params dp tg ni bs ig a.tta a.early) a.adv =
            some p) ∨
        (a.advanced = false ∧
          p = default_params dp tg ni bs ig a.tta a.early)) := by
  unfold generate_collect at h
  iterate 5 (split at h <;> try exact Option.noConfusion h)
  by_cases hadv : a.advanced
  · rw [if_pos hadv] at h
    exact ⟨_, _, _, _, _, by assumption, by assumption, by assumption,
      by assumption, by assumption, Or.inl ⟨hadv, h⟩⟩
  · rw [if_neg hadv] at h
    cases h
    exact ⟨_, _, _, _, _, by assumption, by assumption, by assumption,
      by assumption, by assumption, Or.inr ⟨by simpa using hadv, rfl⟩⟩

/-- Nested field access in a config document. -/
def get_field2 (k1 k2 : String) (j : J) : Option J :=
  match get_field k1 j with
  | none => none
  | some v => get_field k2 v

/-- Directory listing used in the config-generation scenarios: the working
directory contains the single container file `sample.rec`. -/
def sample_fs : List (String × PathKind) := [("sample.rec", PathKind.file)]

/-- Advanced answers that are never consulted (`advanced = false`). -/
def no_adv : AdvAnswers :=
  { train_patch_y := [], train_patch_x := [], train_overlap_y := [],
    train_overlap_x := [], train_num_workers := [], print_freq := [],
    save_freq := [], val_freq := [], warmup_iters := [],
    mixed_precision := J.null, compile_flag := J.null, lr := J.null,
    lr_decay := J.null, weight_decay := J.null, epsilon := J.null,
    betas_0 := J.null, betas_1 := J.null, biflownet_pyr_dim := [],
    biflownet_pyr_level := [], biflownet_corr_radius := [],
    biflownet_kernel_size := [], biflownet_warp_type := J.null,
    biflownet_padding_mode := J.null, biflownet_fix_params := J.null,
    fusionnet_num_channels := [], fusionnet_padding_mode := J.null,
    fusionnet_fix_params := J.null, inf_patch_y := [], inf_patch_x := [],
    inf_overlap_y := [], inf_overlap_x := [], inf_num_workers := [],
    inference_output_format := J.null, inference_pyr_level := [],
    inference_mixed_precision := J.null, inference_compile := J.null }

/-- All-defaults session: data path `sample.rec`, Enter at every integer
prompt, every confirmation declined (`advanced = false`). -/
def default_answers : Answers :=
  { data_path_answers := ["sample.rec"], train_gap := [Ans.enter],
    num_iters := [Ans.enter], batch := [Ans.enter], inf_gap := [Ans.enter],
    tta := false, early := false, advanced := false, adv := no_adv }

/-- The all-defaults session, except that the operator types `5` at the
(standard, non-advanced) inference frame-gap prompt. -/
def override_answers : Answers :=
  { default_answers with inf_gap := [Ans.txt (some 5)] }

/-- Counterexample to claim C4 as stated: the operator overrides the
inference maximum frame gap at the standard prompt of a session with
`advanced = false` — typing `5` there yields inference max frame gap 5
although the training max frame gap is 3, so the override does not require
the advanced path. -/
theorem c4_counterexample :
    override_answers.advanced = false ∧
    generate_collect sample_fs override_answers =
      some (default_params "sample.rec" 3 50000 8 5 false false) ∧
    (default_params "sample.rec" 3 50000 8 5 false false).inference_max_frame_gap = 5 ∧
    (default_params "sample.rec" 3 50000 8 5 false false).train_max_frame_gap = 3 ∧
    (5 : Int) ≠ 2 * 3 :=
  ⟨rfl, rfl, rfl, rfl, by decide⟩

/-- Claim C4, amended.  The default offered for the inference maximum frame
gap equals exactly twice the training maximum frame gap collected in the
same session: accepting the default (pressing Enter at that prompt) always
yields inference gap = 2 × training gap, and the advanced path never
re-collects the inference gap — but the override happens at the standard
(non-advanced) inference prompt itself, not via the advanced path.
Creating an experiment with all defaults accepted and `advanced = false`
yields a training config with `batch_size = 8` and `max_frame_gap = 3` and
an inference config with `max_frame_gap = 6`. -/
theorem c4_inference_gap_default (dfs : List (String × PathKind)) (a : Answers)
    (p : Params) (henter : a.inf_gap = [Ans.enter])
    (h : generate_collect dfs a = some p) :
    p.inference_max_frame_gap = 2 * p.train_max_frame_gap ∧
    (∀ (p0 q : Params) (adv : AdvAnswers), apply_advanced p0 adv = some q →
      q.inference_max_frame_gap = p0.inference_max_frame_gap) ∧
    generate_collect sample_fs default_answers =
      some (default_params "sample.rec" 3 50000 8 6 false false) ∧
    get_field2 "train_data" "batch_size"
        (train_config_doc "e1" (default_params "sample.rec" 3 50000 8 6 false false)) =
      some (J.i 8) ∧
    get_field2 "train_data" "max_frame_gap"
        (train_config_doc "e1" (default_params "sample.rec" 3 50000 8 6 false false)) =
      some (J.i 3) ∧
    get_field2 "inference_data" "max_frame_gap"
        (inference_config_doc "e1" (default_params "sample.rec" 3 50000 8 6 false false)) =
      some (J.i 6) := by
  refine ⟨?_, fun p0 q adv hh => (apply_advanced_keeps_gaps p0 adv q hh).1,
    rfl, rfl, rfl, rfl⟩
  obtain ⟨dp, tg, ni, bs, ig, hdp, htg, hni, hbs, hig, hrest⟩ :=
    generate_collect_inv dfs a p h
  obtain ⟨htg1, htg2⟩ := ask_user_int_bounds 1 40 3 a.train_gap tg htg
  rw [henter, ask_user_int_step] at hig
  simp only [ans_val] at hig
  rw [if_pos ⟨by omega, by omega⟩] at hig
  injection hig with hig
  rcases hrest with ⟨-, happ⟩ | ⟨-, hpeq⟩
  · obtain ⟨hki, hkt⟩ := apply_advanced_keeps_gaps _ _ _ happ
    have e1 : p.inference_max_frame_gap = ig := hki
    have e2 : p.train_max_frame_gap = tg := hkt
    omega
  · subst hpeq
    show ig = 2 * tg
    omega

theorem c4_witness :
    default_answers.inf_gap = [Ans.enter] ∧
    generate_collect sample_fs default_answers =
      some (default_params "sample.rec" 3 50000 8 6 false false) ∧
    ((default_params "sample.rec" 3 50000 8 6 false false).inference_max_frame_gap =
        2 * (default_params "sample.rec" 3 50000 8 6 false false).train_max_frame_gap ∧
      (∀ (p0 q : Params) (adv : AdvAnswers), apply_advanced p0 adv = some q →
        q.inference_max_frame_gap = p0.inference_max_frame_gap) ∧
      generate_collect sample_fs default_answers =
        some (default_params "sample.rec" 3 50000 8 6 false false) ∧
      get_field2 "train_data" "batch_size"
          (train_config_doc "e1" (default_params "sample.rec" 3 50000 8 6 false false)) =
        some (J.i 8) ∧
      get_field2 "train_data" "max_frame_gap"
          (train_config_doc "e1" (default_params "sample.rec" 3 50000 8 6 false false)) =
        some (J.i 3) ∧
      get_field2 "inference_data" "max_frame_gap"
          (inference_config_doc "e1" (default_params "sample.rec" 3 50000 8 6 false false)) =
        some (J.i 6)) :=
  ⟨rfl, rfl, c4_inference_gap_default sample_fs default_answers
    (default_params "sample.rec" 3 50000 8 6 false false) rfl rfl⟩

/-! ## Experiment store (`setup_experiment` lines 751-768,
`delete_experiment` lines 771-793, `list_non_hidden_files` lines 796-798,
`main_menu` lines 652-656, `run_cryosamba` lines 801-836)

The experiments root is a list of `(name, files)` entries, where `files`
are the config files written under the experiment's directory (name and
rendered content).  `shutil.rmtree` removes an entry together with all its
files. -/

inductive SetupMsg where
  | conflict : String → SetupMsg
  | created : String → SetupMsg
deriving DecidableEq, Repr

/-- Mirrors the `while True` name loop of `setup_experiment`: `"E"` exits;
an existing name reports the conflict and re-prompts; a fresh name runs
`generate_experiment`, which collects the parameters and then creates the
experiment directory with its two config files.  Outcome: `none` = blocked
at a prompt, `some none` = exited via `"E"`, `some (some n)` = created `n`. -/
def setup_experiment_loop (dfs : List (String × PathKind))
    (fs : List (String × List (String × String))) :
    List (String × Answers) →
      List (String × List (String × String)) × List SetupMsg ×
        Option (Option String)
  | [] => (fs, [], none)
  | (n, ans) :: rest =>
    if n = "E" then (fs, [], some none)
    else if n ∈ fs.map (·.1) then
      ((setup_experiment_loop dfs fs rest).1,
        SetupMsg.conflict n :: (setup_experiment_loop dfs fs rest).2.1,
        (setup_experiment_loop dfs fs rest).2.2)
    else
      match generate_collect dfs ans with
      | none => (fs, [], none)
      | some p =>
        (fs ++ [(n, experiment_files n p)], [SetupMsg.created n], some (some n))

theorem setup_loop_shape (dfs : List (String × PathKind))
    (fs : List (String × List (String × String)))
    (inputs : List (String × Answers)) :
    (setup_experiment_loop dfs fs inputs).1 = fs ∨
    ∃ n p, n ∉ fs.map (·.1) ∧
      (setup_experiment_loop dfs fs inputs).1 =
        fs ++ [(n, experiment_files n p)] := by
  induction inputs with
  | nil => exact Or.inl rfl
  | cons na rest ih =>
    obtain ⟨n, ans⟩ := na
    unfold setup_experiment_loop
    by_cases hE : n = "E"
    · rw [if_pos hE]
      exact Or.inl rfl
    · rw [if_neg hE]
      by_cases hm : n ∈ fs.map (·.1)
      · rw [if_pos hm]
        exact ih
      · rw [if_neg hm]
        cases hgc : generate_collect dfs ans with
        | none => exact Or.inl rfl
        | some p => exact Or.inr ⟨n, p, hm, rfl⟩

theorem setup_loop_created (dfs : List (String × PathKind))
    (fs : List (String × List (String × String)))
    (inputs : List (String × Answers)) (n : String)
    (h : (setup_experiment_loop dfs fs inputs).2.2 = some (some n)) :
    n ≠ "E" ∧ n ∉ fs.map (·.1) ∧
    ∃ p, (setup_experiment_loop dfs fs inputs).1 =
      fs ++ [(n, experiment_files n p)] := by
  induction inputs with
  | nil => exact Option.noConfusion h
  | cons na rest ih =>
    obtain ⟨m, ans⟩ := na
    unfold setup_experiment_loop at h ⊢
    by_cases hE : m = "E"
    · rw [if_pos hE] at h ⊢
      simp at h
    · rw [if_neg hE] at h ⊢
      by_cases hm : m ∈ fs.map (·.1)
      · rw [if_pos hm] at h ⊢
        exact ih h
      · rw [if_neg hm] at h ⊢
        cases hgc : generate_collect dfs ans with
        | none =>
          simp only [hgc] at h
          exact Option.noConfusion h
        | some p =>
          simp only [hgc] at h ⊢
          obtain ⟨rfl⟩ : m = n := by
            have := h
            simp at this
            exact this
          exact ⟨hE, hm, p, rfl⟩

/-- Claim C2.  Experiment configurations are write-once per name: a name
already present under the experiments root is refused — the create flow
reports the conflict and re-prompts for a different name — every entry
present before the flow is still present, unmodified, afterwards (the
existing config documents are never regenerated or overwritten, and name
uniqueness is preserved), and an experiment is only ever created under a
name that did not exist when the flow ran, as a fresh entry appended to the
root; regenerating under an existing name is impossible through the flow
(it would first have to be deleted). -/
theorem c2_write_once_per_name (dfs : List (String × PathKind))
    (fs : List (String × List (String × String))) :
    (∀ (n : String) (ans : Answers) (rest : List (String × Answers)),
      n ≠ "E" → n ∈ fs.map (·.1) →
      setup_experiment_loop dfs fs ((n, ans) :: rest) =
        ((setup_experiment_loop dfs fs rest).1,
          SetupMsg.conflict n :: (setup_experiment_loop dfs fs rest).2.1,
          (setup_experiment_loop dfs fs rest).2.2)) ∧
    (∀ (inputs : List (String × Answers))
      (e : String × List (String × String)),
      e ∈ fs → e ∈ (setup_experiment_loop dfs fs inputs).1) ∧
    (∀ (inputs : List (String × Answers)) (n : String),
      (setup_experiment_loop dfs fs inputs).2.2 = some (some n) →
      n ∉ fs.map (·.1) ∧
        ∃ p, (setup_experiment_loop dfs fs inputs).1 =
          fs ++ [(n, experiment_files n p)]) ∧
    (∀ inputs : List (String × Answers), (fs.map (·.1)).Nodup →
      (((setup_experiment_loop dfs fs inputs).1).map (·.1)).Nodup) := by
  refine ⟨?_, ?_, ?_, ?_⟩
  · intro n ans rest hE hm
    conv_lhs => unfold setup_experiment_loop
    rw [if_neg hE, if_pos hm]
  · intro inputs e he
    rcases setup_loop_shape dfs fs inputs with hsh | ⟨n, p, -, hsh⟩ <;>
      rw [hsh]
    · exact he
    · exact List.mem_append_left _ he
  · intro inputs n h
    obtain ⟨-, hm, hp⟩ := setup_loop_created dfs fs inputs n h
    exact ⟨hm, hp⟩
  · intro inputs hnd
    rcases setup_loop_shape dfs fs inputs with hsh | ⟨n, p, hm, hsh⟩ <;>
      rw [hsh]
    · exact hnd
    · simp only [List.map_append, List.map_cons, List.map_nil]
      rw [List.nodup_append]
      exact ⟨hnd, List.nodup_singleton _, by simpa using fun hx => hm hx⟩

inductive DelMsg where
  | notFound : String → DelMsg
  | deleted : String → DelMsg
deriving DecidableEq, Repr

/-- Models `shutil.rmtree(exp_path)`: the experiment's entire entry — the
directory and all files below it — disappears from the root. -/
def remove_experiment (n : String)
    (fs : List (String × List (String × String))) :
    List (String × List (String × String)) :=
  fs.filter (fun e => ¬ e.1 = n)

/-- Mirrors the `while True` loop of `delete_experiment`: `"E"` exits; an
absent name reports not-found and re-prompts; a present name asks for
confirmation — confirming removes the entire subtree, declining leaves it
untouched — and in both cases the loop continues.  The `Bool` records
whether the loop finished via `"E"`. -/
def delete_experiment_loop (fs : List (String × List (String × String))) :
    List (String × Bool) →
      List (String × List (String × String)) × List DelMsg × Bool
  | [] => (fs, [], false)
  | (n, c) :: rest =>
    if n = "E" then (fs, [], true)
    else if n ∈ fs.map (·.1) then
      if c then
        ((delete_experiment_loop (remove_experiment n fs) rest).1,
          DelMsg.deleted n ::
            (delete_experiment_loop (remove_experiment n fs) rest).2.1,
          (delete_experiment_loop (remove_experiment n fs) rest).2.2)
      else delete_experiment_loop fs rest
    else
      ((delete_experiment_loop fs rest).1,
        DelMsg.notFound n :: (delete_experiment_loop fs rest).2.1,
        (delete_experiment_loop fs rest).2.2)

/-- Claim C5.  Deleting an absent experiment reports not-found and leaves
the experiments root unchanged (a whole run whose prompted names are all
absent leaves the root exactly as it was); deleting a present experiment
removes its entire entry — directory and all contents — only after an
explicit affirmative confirmation, after which no entry under that name
remains; declining the confirmation changes nothing at that step, and an
experiment for which no confirmed deletion request ever occurs keeps its
entire subtree intact across the whole flow. -/
theorem c5_delete_experiment (fs : List (String × List (String × String))) :
    (∀ (n : String) (c : Bool) (rest : List (String × Bool)),
      n ≠ "E" → n ∉ fs.map (·.1) →
      delete_experiment_loop fs ((n, c) :: rest) =
        ((delete_experiment_loop fs rest).1,
          DelMsg.notFound n :: (delete_experiment_loop fs rest).2.1,
          (delete_experiment_loop fs rest).2.2)) ∧
    (∀ inputs : List (String × Bool),
      (∀ q ∈ inputs, q.1 ∉ fs.map (·.1)) →
      (delete_experiment_loop fs inputs).1 = fs) ∧
    (∀ (n : String) (rest : List (String × Bool)),
      n ≠ "E" → n ∈ fs.map (·.1) →
      delete_experiment_loop fs ((n, false) :: rest) =
        delete_experiment_loop fs rest) ∧
    (∀ (n : String) (rest : List (String × Bool)),
      n ≠ "E" → n ∈ fs.map (·.1) →
      delete_experiment_loop fs ((n, true) :: rest) =
        ((delete_experiment_loop (remove_experiment n fs) rest).1,
          DelMsg.deleted n ::
            (delete_experiment_loop (remove_experiment n fs) rest).2.1,
          (delete_experiment_loop (remove_experiment n fs) rest).2.2)) ∧
    (∀ (n : String) (files : List (String × String)),
      (n, files) ∉ remove_experiment n fs) ∧
    (∀ (n : String) (files : List (String × String))
      (inputs : List (String × Bool)),
      (n, files) ∈ fs → (n, true) ∉ inputs →
      (n, files) ∈ (delete_experiment_loop fs inputs).1) := by
  refine ⟨?_, ?_, ?_, ?_, ?_, ?_⟩
  · intro n c rest hE hm
    conv_lhs => unfold delete_experiment_loop
    rw [if_neg hE, if_neg hm]
  · intro inputs hall
    induction inputs with
    | nil => rfl
    | cons q rest ih =>
      obtain ⟨n, c⟩ := q
      unfold delete_experiment_loop
      by_cases hE : n = "E"
      · rw [if_pos hE]
      · rw [if_neg hE, if_neg (hall (n, c) (by simp))]
        exact ih fun q hq => hall q (by simp [hq])
  · intro n rest hE hm
    conv_lhs => unfold delete_experiment_loop
    rw [if_neg hE, if_pos hm, if_neg (by simp)]
  · intro n rest hE hm
    conv_lhs => unfold delete_experiment_loop
    rw [if_neg hE, if_pos hm, if_pos rfl]
  · intro n files hmem
    have := List.mem_filter.mp hmem
    simp at this
  · intro n files inputs hmem hnoc
    induction inputs generalizing fs with
    | nil => exact hmem
    | cons q rest ih =>
      obtain ⟨m, c⟩ := q
      unfold delete_experiment_loop
      by_cases hE : m = "E"
      · rw [if_pos hE]
        exact hmem
      · rw [if_neg hE]
        by_cases hm : m ∈ fs.map (·.1)
        · rw [if_pos hm]
          cases c with
          | false =>
            rw [if_neg (by simp)]
            exact ih fs hmem (fun hx => hnoc (by simp [hx]))
          | true =>
            rw [if_pos rfl]
            have hne : m ≠ n := by
              intro hmn
              exact hnoc (by simp [hmn])
            refine ih (remove_experiment m fs) ?_
              (fun hx => hnoc (by simp [hx]))
            exact List.mem_filter.mpr ⟨hmem, by simpa using fun hh => hne hh.symm⟩
        · rw [if_neg hm]
          exact ih fs hmem (fun hx => hnoc (by simp [hx]))

/-- Mirrors `list_non_hidden_files`: the entries of the experiments root
that do not start with a dot. -/
def list_non_hidden_files (entries : List String) : List String :=
  entries.filter (fun f => !f.startsWith ".")

/-- Mirrors the experiments-root bookkeeping of `main_menu` (lines
652-656): `os.makedirs(RUNS_DIR)` when the root does not exist (`none`),
then the listing of non-hidden entries used to report the experiments. -/
def main_menu_scan (root : Option (List String)) :
    Option (List String) × List String :=
  match root with
  | none => (some [], list_non_hidden_files [])
  | some entries => (some entries, list_non_hidden_files entries)

/-- Claim C9.  Listing experiments enumerates exactly the top-level entries
of the experiments root that are not dot-prefixed (every hidden entry is
excluded, everything else is kept, in order), and the root is created if
absent: scanning a missing root creates it empty and reports zero existing
experiments. -/
theorem c9_listing_and_root_creation :
    (∀ (entries : List String) (x : String),
      x ∈ list_non_hidden_files entries ↔
        x ∈ entries ∧ x.startsWith "." = false) ∧
    (∀ entries : List String,
      list_non_hidden_files entries =
        entries.filter (fun f => !f.startsWith ".")) ∧
    main_menu_scan none = (some [], []) ∧
    (∀ entries : List String,
      main_menu_scan (some entries) = (some entries, list_non_hidden_files entries)) := by
  refine ⟨?_, fun _ => rfl, rfl, fun _ => rfl⟩
  intro entries x
  simp [list_non_hidden_files, List.mem_filter]

inductive Mode where
  | training : Mode
  | inference : Mode
deriving DecidableEq, Repr

inductive RunResult where
  | exited : RunResult
  | noSelection : RunResult
  | launched : String → TorchrunCmd → RunResult
  | declined : String → RunResult
deriving DecidableEq, Repr

/-- Mirrors the name loop of `run_cryosamba` (lines 817-834): `"E"` exits;
an absent name reports not-found and re-prompts; a present name runs GPU
selection — `-1` (no selection) skips the run — and otherwise hands the
comma-joined selection to `run_training`/`run_inference`, which executes
the command only on confirmation.  `none` = blocked at a prompt. -/
def run_cryosamba_loop (mode : Mode)
    (fs : List (String × List (String × String)))
    (gpu_universe gpu_toks : List String) (confirm : Bool) :
    List String → Option RunResult
  | [] => none
  | n :: rest =>
    if n = "E" then some RunResult.exited
    else if n ∈ fs.map (·.1) then
      match select_gpus_loop ⟨gpu_universe, []⟩ gpu_toks with
      | (st, true) =>
        match select_gpus_result st with
        | none => some RunResult.noSelection
        | some sel =>
          match mode with
          | Mode.training =>
            match run_training (join_comma sel) n confirm with
            | some c => some (RunResult.launched n c)
            | none => some (RunResult.declined n)
          | Mode.inference =>
            match run_inference (join_comma sel) n confirm with
            | some c => some (RunResult.launched n c)
            | none => some (RunResult.declined n)
      | (_, false) => none
    else run_cryosamba_loop mode fs gpu_universe gpu_toks confirm rest

/-- Claim C10.  The literal input `"E"` is a reserved token at every
experiment-name prompt: in the create, delete and run flows it is
interpreted as the exit token before any existence check, so the flows exit
immediately on `"E"` whatever the store contains; consequently an
experiment named `"E"` can never be created (no create flow ever reports
`"E"` as created), never be deleted (an entry named `"E"` survives any
delete flow), and never be launched (no run flow ever launches an
experiment named `"E"`). -/
theorem c10_reserved_exit_token :
    (∀ (dfs : List (String × PathKind))
      (fs : List (String × List (String × String))) (ans : Answers)
      (rest : List (String × Answers)),
      setup_experiment_loop dfs fs (("E", ans) :: rest) = (fs, [], some none)) ∧
    (∀ (dfs : List (String × PathKind))
      (fs : List (String × List (String × String)))
      (inputs : List (String × Answers)) (n : String),
      (setup_experiment_loop dfs fs inputs).2.2 = some (some n) → n ≠ "E") ∧
    (∀ (fs : List (String × List (String × String))) (c : Bool)
      (rest : List (String × Bool)),
      delete_experiment_loop fs (("E", c) :: rest) = (fs, [], true)) ∧
    (∀ (fs : List (String × List (String × String)))
      (inputs : List (String × Bool)) (files : List (String × String)),
      ("E", files) ∈ fs →
      ("E", files) ∈ (delete_experiment_loop fs inputs).1) ∧
    (∀ (mode : Mode) (fs : List (String × List (String × String)))
      (gpu_universe gpu_toks : List String) (confirm : Bool)
      (rest : List String),
      run_cryosamba_loop mode fs gpu_universe gpu_toks confirm ("E" :: rest) =
        some RunResult.exited) ∧
    (∀ (mode : Mode) (fs : List (String × List (String × String)))
      (gpu_universe gpu_toks : List String) (confirm : Bool)
      (inputs : List String) (n : String) (c : TorchrunCmd),
      run_cryosamba_loop mode fs gpu_universe gpu_toks confirm inputs =
        some (RunResult.launched n c) → n ≠ "E") := by
  refine ⟨?_, ?_, ?_, ?_, ?_, ?_⟩
  · intro dfs fs ans rest
    unfold setup_experiment_loop
    rw [if_pos rfl]
  · intro dfs fs inputs n h
    exact (setup_loop_created dfs fs inputs n h).1
  · intro fs c rest
    unfold delete_experiment_loop
    rw [if_pos rfl]
  · intro fs inputs files hmem
    induction inputs generalizing fs with
    | nil => exact hmem
    | cons q rest ih =>
      obtain ⟨m, c⟩ := q
      unfold delete_experiment_loop
      by_cases hE : m = "E"
      · rw [if_pos hE]
        exact hmem
      · rw [if_neg hE]
        by_cases hm : m ∈ fs.map (·.1)
        · rw [if_pos hm]
          cases c with
          | false =>
            rw [if_neg (by simp)]
            exact ih fs hmem
          | true =>
            rw [if_pos rfl]
            refine ih (remove_experiment m fs) ?_
            exact List.mem_filter.mpr ⟨hmem, by simpa using fun hh => hE hh.symm⟩
        · rw [if_neg hm]
          exact ih fs hmem
  · intro mode fs gpu_universe gpu_toks confirm rest
    unfold run_cryosamba_loop
    rw [if_pos rfl]
  · intro mode fs gpu_universe gpu_toks confirm inputs n c h
    induction inputs with
    | nil => exact Option.noConfusion h
    | cons m rest ih =>
      unfold run_cryosamba_loop at h
      by_cases hE : m = "E"
      · rw [if_pos hE] at h
        injection h with h2
        exact RunResult.noConfusion h2
      · rw [if_neg hE] at h
        by_cases hm : m ∈ fs.map (·.1)
        · rw [if_pos hm] at h
          rcases hsel : select_gpus_loop ⟨gpu_universe, []⟩ gpu_toks with ⟨st, fin⟩
          rw [hsel] at h
          cases fin with
          | false => exact Option.noConfusion h
          | true =>
            cases hres : select_gpus_result st with
            | none =>
              simp only [hres] at h
              injection h with h2
              exact RunResult.noConfusion h2
            | some sel =>
              simp only [hres] at h
              cases mode with
              | training =>
                cases hrt : run_training (join_comma sel) m confirm with
                | none =>
                  simp only [hrt] at h
                  injection h with h2
                  exact RunResult.noConfusion h2
                | some cmd =>
                  simp only [hrt] at h
                  injection h with h2
                  injection h2 with h3 h4
                  rw [← h3]
                  exact hE
              | inference =>
                cases hrt : run_inference (join_comma sel) m confirm with
                | none =>
                  simp only [hrt] at h
                  injection h with h2
                  exact RunResult.noConfusion h2
                | some cmd =>
                  simp only [hrt] at h
                  injection h with h2
                  injection h2 with h3 h4
                  rw [← h3]
                  exact hE
        · rw [if_neg hm] at h
          exact ih h

end Cryosamba
